import Mathlib

/-!
Shallow embedding of the SIGMA versioned canvas state store
(src/backend/models.py, src/backend/state.py, src/backend/tools.py).

Modelling conventions:
- Pydantic models become Lean structures; Python dicts holding the canvas
  payloads (the 9-key BMC dict, the 6-key VPC dict) become structures with
  a string-keyed lookup that mirrors the membership test used by the code.
- The nondeterministic fields (uuid ids of CustomerSegment, CanvasVersion
  and ActionOutcome, the timestamp of CanvasVersion) are omitted from the
  model; the id of a ProposedChange is kept as an explicit input because
  apply_proposed_changes looks pending changes up by id.
- The SHA-256 digest in ProposedChange.compute_hash is modelled by the raw
  pre-image string canvasType-bar-field-bar-action-bar-newValue, treating
  the digest as an injective encoding of that pre-image.
- Python truthiness of an Optional[str] (None and the empty string are
  falsy) is modelled by the function truthy.
- An uncaught Python exception (ValueError from an enum constructor) is
  modelled as an explicit outcome constructor named exn; every other
  return of the code is a normal string result.
- Quote punctuation inside the returned message strings is elided.
-/

/-- Importance level for VPC items (models.Importance). -/
inductive Importance where
  | very_essential
  | fairly_essential
  | not_essential
deriving DecidableEq, Repr

/-- Importance level for customer segments (models.SegmentImportance). -/
inductive SegmentImportance where
  | very_important
  | fairly_important
  | not_important
deriving DecidableEq, Repr

/-- Parse a string into SegmentImportance, models the Python enum call
SegmentImportance(value), which raises ValueError on a bad value. -/
def SegmentImportance.ofString? (v : String) : Option SegmentImportance :=
  if v = "very_important" then some .very_important
  else if v = "fairly_important" then some .fairly_important
  else if v = "not_important" then some .not_important
  else none

/-- Types of canvases (models.CanvasType). -/
inductive CanvasType where
  | bmc
  | vpc
  | segments
deriving DecidableEq, Repr

/-- The string value of a CanvasType member. -/
def CanvasType.toStr : CanvasType → String
  | .bmc => "bmc"
  | .vpc => "vpc"
  | .segments => "segments"

/-- Parse a string into CanvasType, models the Python enum call
CanvasType(value), which raises ValueError on a bad value. -/
def CanvasType.ofString? (v : String) : Option CanvasType :=
  if v = "bmc" then some .bmc
  else if v = "vpc" then some .vpc
  else if v = "segments" then some .segments
  else none

/-- Types of changes (models.ChangeAction). -/
inductive ChangeAction where
  | add
  | update
  | remove
deriving DecidableEq, Repr

/-- The string value of a ChangeAction member. -/
def ChangeAction.toStr : ChangeAction → String
  | .add => "add"
  | .update => "update"
  | .remove => "remove"

/-- Parse a string into ChangeAction, models the Python enum call
ChangeAction(value), which raises ValueError on a bad value. -/
def ChangeAction.ofString? (v : String) : Option ChangeAction :=
  if v = "add" then some .add
  else if v = "update" then some .update
  else if v = "remove" then some .remove
  else none

/-- An item in a VPC canvas section (models.CanvasItem). -/
@[ext]
structure CanvasItem where
  text : String
  importance : Importance
deriving DecidableEq, Repr

/-- Business Model Canvas with 9 building blocks (models.BMCCanvas),
kept in the thread state as a dict with these 9 keys. -/
@[ext]
structure BMCCanvas where
  key_partners : List String
  key_activities : List String
  key_resources : List String
  value_propositions : List String
  customer_relationships : List String
  channels : List String
  customer_segments : List String
  cost_structure : List String
  revenue_streams : List String
deriving DecidableEq, Repr

/-- Dict lookup on the 9-key BMC payload; none models the failing
membership test "field not in canvas_dict". -/
def BMCCanvas.get? (c : BMCCanvas) (field : String) : Option (List String) :=
  if field = "key_partners" then some c.key_partners
  else if field = "key_activities" then some c.key_activities
  else if field = "key_resources" then some c.key_resources
  else if field = "value_propositions" then some c.value_propositions
  else if field = "customer_relationships" then some c.customer_relationships
  else if field = "channels" then some c.channels
  else if field = "customer_segments" then some c.customer_segments
  else if field = "cost_structure" then some c.cost_structure
  else if field = "revenue_streams" then some c.revenue_streams
  else none

/-- Dict write canvas_dict[field] = v on the BMC payload; unknown keys
leave the payload unchanged (the code only writes keys it has looked up). -/
def BMCCanvas.set (c : BMCCanvas) (field : String) (v : List String) : BMCCanvas :=
  if field = "key_partners" then { c with key_partners := v }
  else if field = "key_activities" then { c with key_activities := v }
  else if field = "key_resources" then { c with key_resources := v }
  else if field = "value_propositions" then { c with value_propositions := v }
  else if field = "customer_relationships" then { c with customer_relationships := v }
  else if field = "channels" then { c with channels := v }
  else if field = "customer_segments" then { c with customer_segments := v }
  else if field = "cost_structure" then { c with cost_structure := v }
  else if field = "revenue_streams" then { c with revenue_streams := v }
  else c

/-- Value Proposition Canvas with 6 sections (models.VPCCanvas). -/
@[ext]
structure VPCCanvas where
  customer_jobs : List CanvasItem
  pains : List CanvasItem
  gains : List CanvasItem
  products_services : List CanvasItem
  pain_relievers : List CanvasItem
  gain_creators : List CanvasItem
deriving DecidableEq, Repr

/-- Dict lookup on the 6-key VPC payload. -/
def VPCCanvas.get? (c : VPCCanvas) (field : String) : Option (List CanvasItem) :=
  if field = "customer_jobs" then some c.customer_jobs
  else if field = "pains" then some c.pains
  else if field = "gains" then some c.gains
  else if field = "products_services" then some c.products_services
  else if field = "pain_relievers" then some c.pain_relievers
  else if field = "gain_creators" then some c.gain_creators
  else none

/-- Dict write on the VPC payload. -/
def VPCCanvas.set (c : VPCCanvas) (field : String) (v : List CanvasItem) : VPCCanvas :=
  if field = "customer_jobs" then { c with customer_jobs := v }
  else if field = "pains" then { c with pains := v }
  else if field = "gains" then { c with gains := v }
  else if field = "products_services" then { c with products_services := v }
  else if field = "pain_relievers" then { c with pain_relievers := v }
  else if field = "gain_creators" then { c with gain_creators := v }
  else c

/-- A customer segment (models.CustomerSegment); the uuid id field is
omitted from the model. -/
@[ext]
structure CustomerSegment where
  name : String
  description : String
  persona : String
  importance : SegmentImportance
deriving DecidableEq, Repr

/-- Snapshot payload stored in a version entry: the bmc and vpc branches
store the canvas dict itself, the segments branch stores the wrapper
dict with the single key items. -/
inductive Snapshot where
  | bmcSnap (c : BMCCanvas)
  | vpcSnap (c : VPCCanvas)
  | segSnap (items : List CustomerSegment)
deriving DecidableEq, Repr

/-- A version entry tracking a canvas change (models.CanvasVersion);
the uuid id and the timestamp are omitted from the model. -/
@[ext]
structure VersionEntry where
  canvas_type : CanvasType
  change_description : String
  change_hash : String
  snapshot_before : Snapshot
  snapshot_after : Snapshot
  applied_by : String
deriving DecidableEq, Repr

/-- Python truthiness of an Optional[str]: None and the empty string are
falsy, every other string is truthy. -/
def truthy : Option String → Bool
  | none => false
  | some s => !(s = "")

/-- Models the Python expression (a or b) rendered into an f-string:
if a is truthy its string is used, otherwise b is rendered, with None
rendered as the literal text None. -/
def pyOr (a b : Option String) : String :=
  if truthy a then a.getD ""
  else match b with
    | none => "None"
    | some s => s

/-- Idempotency hash of a change (models.ProposedChange.compute_hash).
The code computes the first 16 hex chars of the SHA-256 digest of the
string canvasType-bar-field-bar-action-bar-newValueOrEmpty; the model
keeps the pre-image itself, treating the digest as an injective encoding. -/
def computeHash (ct : CanvasType) (field : String) (a : ChangeAction) (nv : Option String) : String :=
  ct.toStr ++ "|" ++ field ++ "|" ++ a.toStr ++ "|" ++ nv.getD ""

/-- A proposed change (models.ProposedChange); the id is an explicit
input standing for the generated uuid. -/
@[ext]
structure ProposedChange where
  id : String
  canvas_type : CanvasType
  field : String
  action : ChangeAction
  old_value : Option String
  new_value : Option String
  reason : String
  change_hash : String
deriving DecidableEq, Repr

/-- Construct a ProposedChange, computing the hash as model_post_init
does when no hash is supplied. -/
def mkProposedChange (id : String) (ct : CanvasType) (field : String) (a : ChangeAction)
    (old_value new_value : Option String) (reason : String) : ProposedChange :=
  { id := id, canvas_type := ct, field := field, action := a,
    old_value := old_value, new_value := new_value, reason := reason,
    change_hash := computeHash ct field a new_value }

/-- Log entry for an action outcome (models.ActionOutcome); uuid id and
timestamp omitted. -/
@[ext]
structure ActionOutcome where
  action_name : String
  outcome : String
  learnings : String
deriving DecidableEq, Repr

/-- Per-thread canvas state (the dict built by state.get_canvas_state). -/
@[ext]
structure ThreadState where
  bmc : BMCCanvas
  vpc : VPCCanvas
  segments : List CustomerSegment
  versions : List VersionEntry
  pending_changes : List ProposedChange
  rejected_changes : List ProposedChange
  undo_stack : List VersionEntry
  redo_stack : List VersionEntry
  auto_mode : Bool
  action_log : List ActionOutcome
deriving DecidableEq, Repr

/-- Seed BMC content (models.get_seed_bmc). -/
def seedBmc : BMCCanvas :=
  { key_partners := ["Cloud infrastructure providers", "University incubators"],
    key_activities := ["Product development", "Customer discovery interviews"],
    key_resources := ["Engineering team", "Customer research data"],
    value_propositions := ["AI-powered business model validation for founders"],
    customer_relationships := ["Self-service platform", "Guided onboarding"],
    channels := ["Direct web app", "Startup community events"],
    customer_segments := ["Early-stage tech founders", "Accelerator programs"],
    cost_structure := ["Cloud hosting", "AI API costs", "Team salaries"],
    revenue_streams := ["SaaS subscription"] }

/-- Seed VPC content (models.get_seed_vpc). -/
def seedVpc : VPCCanvas :=
  { customer_jobs :=
      [{ text := "Validate business model assumptions", importance := .very_essential },
       { text := "Track experiment outcomes", importance := .very_essential },
       { text := "Iterate on value proposition", importance := .fairly_essential }],
    pains :=
      [{ text := "Manual canvas updates are tedious", importance := .very_essential },
       { text := "Hard to connect experiment results to model changes", importance := .fairly_essential }],
    gains :=
      [{ text := "Faster iteration cycles", importance := .very_essential },
       { text := "Evidence-based business model decisions", importance := .fairly_essential }],
    products_services :=
      [{ text := "AI co-pilot for canvas management", importance := .very_essential }],
    pain_relievers :=
      [{ text := "Automatic canvas updates from experiment results", importance := .very_essential }],
    gain_creators :=
      [{ text := "Version history with undo/redo", importance := .fairly_essential }] }

/-- Seed customer segments (models.get_seed_segments). -/
def seedSegments : List CustomerSegment :=
  [{ name := "Technical Founders",
     description := "Founders with engineering backgrounds building B2B SaaS",
     persona := "Alex, 28, ex-FAANG engineer, building dev tools startup",
     importance := .very_important },
   { name := "Accelerator Teams",
     description := "Teams in accelerator programs needing structured validation",
     persona := "Priya, 32, leading a 3-person team in Y Combinator",
     importance := .fairly_important }]

/-- Fresh per-thread state (state.get_canvas_state on first touch). -/
def initialState : ThreadState :=
  { bmc := seedBmc, vpc := seedVpc, segments := seedSegments,
    versions := [], pending_changes := [], rejected_changes := [],
    undo_stack := [], redo_stack := [], auto_mode := false, action_log := [] }

/-- Outcome of tools._apply_single_change: ok is the Applied string,
err is one of its early-returned failure strings, exn is an uncaught
ValueError escaping the function (raised by SegmentImportance(value)). -/
inductive ApplyOutcome where
  | ok (msg : String)
  | err (msg : String)
  | exn (msg : String)
deriving DecidableEq, Repr

/-- Outcome of the segments update loop (for seg in segments ... break /
else return). notFound models the for-else error return, exnBadImportance
the ValueError raised by SegmentImportance on a bad value, updated the
segments list after mutating the first segment whose name matches. -/
inductive SegUpdateRes where
  | notFound
  | exnBadImportance
  | updated (segs : List CustomerSegment)
deriving DecidableEq, Repr

/-- The segments update loop of tools._apply_single_change: walk the list,
mutate the first segment whose name equals the target, break; the for-else
fires when no segment matched. An unrecognized field name falls through
every elif and leaves the matched segment unchanged. -/
def segUpdate (segs : List CustomerSegment) (target field nv : String) : SegUpdateRes :=
  match segs with
  | [] => .notFound
  | seg :: rest =>
    if seg.name = target then
      if field = "name" then .updated ({ seg with name := nv } :: rest)
      else if field = "description" then .updated ({ seg with description := nv } :: rest)
      else if field = "persona" then .updated ({ seg with persona := nv } :: rest)
      else if field = "importance" then
        match SegmentImportance.ofString? nv with
        | some imp => .updated ({ seg with importance := imp } :: rest)
        | none => .exnBadImportance
      else .updated (seg :: rest)
    else
      match segUpdate rest target field nv with
      | .updated rest2 => .updated (seg :: rest2)
      | r => r

/-- Build the CanvasVersion recorded by tools._apply_single_change. -/
def mkVersion (auto : Bool) (ct : CanvasType) (c : ProposedChange)
    (before after : Snapshot) : VersionEntry :=
  { canvas_type := ct,
    change_description :=
      c.action.toStr ++ " " ++ pyOr c.new_value c.old_value ++ " in " ++ ct.toStr ++ "." ++ c.field,
    change_hash := c.change_hash,
    snapshot_before := before,
    snapshot_after := after,
    applied_by := if auto then "auto" else "manual" }

/-- Record a version: append to the version log, clear the redo stack,
push onto the undo stack (the tail of tools._apply_single_change). -/
def recordVersion (s : ThreadState) (v : VersionEntry) : ThreadState :=
  { s with versions := s.versions ++ [v],
           redo_stack := [],
           undo_stack := s.undo_stack ++ [v] }

/-- The Applied result string of tools._apply_single_change. -/
def appliedMsg (c : ProposedChange) : String :=
  "Applied: " ++ c.action.toStr ++ " " ++ pyOr c.new_value c.old_value ++ " in "
    ++ c.canvas_type.toStr ++ "." ++ c.field ++ ". Reason: " ++ c.reason

/-- tools._apply_single_change. The Python else-branch for an unknown
canvas type is unreachable here because change.canvas_type is already a
CanvasType enum member, as it is in the Python model class. -/
def applySingleChange (s : ThreadState) (c : ProposedChange) : ThreadState × ApplyOutcome :=
  match c.canvas_type with
  | .bmc =>
    match s.bmc.get? c.field with
    | none => (s, .err ("Invalid BMC field: " ++ c.field))
    | some entries =>
      let entries2 :=
        if c.action = .add ∧ truthy c.new_value then
          if (c.new_value.getD "") ∈ entries then entries
          else entries ++ [c.new_value.getD ""]
        else if c.action = .remove ∧ truthy c.old_value then
          entries.filter (fun v => ¬ v = c.old_value.getD "")
        else if c.action = .update ∧ truthy c.old_value ∧ truthy c.new_value then
          entries.map (fun v => if v = c.old_value.getD "" then c.new_value.getD "" else v)
        else entries
      let newBmc := s.bmc.set c.field entries2
      let v := mkVersion s.auto_mode .bmc c (.bmcSnap s.bmc) (.bmcSnap newBmc)
      (recordVersion { s with bmc := newBmc } v, .ok (appliedMsg c))
  | .vpc =>
    match s.vpc.get? c.field with
    | none => (s, .err ("Invalid VPC field: " ++ c.field))
    | some entries =>
      let entries2 :=
        if c.action = .add ∧ truthy c.new_value then
          if (c.new_value.getD "") ∈ entries.map (fun item => item.text) then entries
          else entries ++ [{ text := c.new_value.getD "", importance := .fairly_essential }]
        else if c.action = .remove ∧ truthy c.old_value then
          entries.filter (fun item => ¬ item.text = c.old_value.getD "")
        else if c.action = .update ∧ truthy c.old_value ∧ truthy c.new_value then
          entries.map (fun item =>
            if item.text = c.old_value.getD "" then { item with text := c.new_value.getD "" } else item)
        else entries
      let newVpc := s.vpc.set c.field entries2
      let v := mkVersion s.auto_mode .vpc c (.vpcSnap s.vpc) (.vpcSnap newVpc)
      (recordVersion { s with vpc := newVpc } v, .ok (appliedMsg c))
  | .segments =>
    let segs := s.segments
    if c.action = .add ∧ truthy c.new_value then
      let segs2 :=
        if segs.any (fun sg => sg.name = c.new_value.getD "") then segs
        else segs ++ [{ name := c.new_value.getD "",
                        description := if ¬ c.field = "name" then c.field else "",
                        persona := "",
                        importance := .fairly_important }]
      let v := mkVersion s.auto_mode .segments c (.segSnap segs) (.segSnap segs2)
      (recordVersion { s with segments := segs2 } v, .ok (appliedMsg c))
    else if c.action = .remove ∧ truthy c.old_value then
      let segs2 := segs.filter (fun sg => ¬ sg.name = c.old_value.getD "")
      let v := mkVersion s.auto_mode .segments c (.segSnap segs) (.segSnap segs2)
      (recordVersion { s with segments := segs2 } v, .ok (appliedMsg c))
    else if c.action = .update ∧ truthy c.old_value ∧ truthy c.new_value then
      match segUpdate segs (c.old_value.getD "") c.field (c.new_value.getD "") with
      | .notFound =>
        (s, .err ("No segment found with name " ++ c.old_value.getD ""
          ++ ". Pass the segment name as old_value to identify which segment to update."))
      | .exnBadImportance =>
        (s, .exn ("ValueError: " ++ c.new_value.getD "" ++ " is not a valid SegmentImportance"))
      | .updated segs2 =>
        let v := mkVersion s.auto_mode .segments c (.segSnap segs) (.segSnap segs2)
        (recordVersion { s with segments := segs2 } v, .ok (appliedMsg c))
    else
      let v := mkVersion s.auto_mode .segments c (.segSnap segs) (.segSnap segs)
      (recordVersion { s with segments := segs } v, .ok (appliedMsg c))

/-- Restore a canvas from a snapshot, dispatching on the version entry
canvas_type as undo_last_change and redo_change do. A mismatched snapshot
shape never arises from entries produced by applySingleChange; such a
mismatch is modelled as leaving the state unchanged. For segments the
payload is unwrapped from the items wrapper, as the code does. -/
def restoreSnap (s : ThreadState) (ct : CanvasType) (snap : Snapshot) : ThreadState :=
  match ct with
  | .bmc =>
    match snap with
    | .bmcSnap c => { s with bmc := c }
    | _ => s
  | .vpc =>
    match snap with
    | .vpcSnap c => { s with vpc := c }
    | _ => s
  | .segments =>
    match snap with
    | .segSnap items => { s with segments := items }
    | _ => s

/-- Outcome of tools.propose_canvas_update. exn models the uncaught
ValueError raised when the canvas_type or action string is not an enum
member, or the one escaping from the apply in auto mode. -/
inductive ProposeOutcome where
  | exn (msg : String)
  | duplicate (h : String)
  | autoApplied (o : ApplyOutcome)
  | queued (changeId : String)
deriving DecidableEq, Repr

/-- Tail of tools.propose_canvas_update once the change is constructed:
skip if its hash is already in the version log, then apply immediately in
auto mode or queue it in manual mode. -/
def proposeWithChange (s : ThreadState) (change : ProposedChange) :
    ThreadState × ProposeOutcome :=
  if s.versions.any (fun v => v.change_hash = change.change_hash) then
    (s, .duplicate change.change_hash)
  else if s.auto_mode then
    match applySingleChange s change with
    | (s2, .exn m) => (s2, .exn m)
    | (s2, o) => (s2, .autoApplied o)
  else
    ({ s with pending_changes := s.pending_changes ++ [change] }, .queued change.id)

/-- tools.propose_canvas_update: construct the change (the enum calls in
the constructor raise on a bad string), then proposeWithChange. freshId
stands for the generated uuid of the change. -/
def proposeCanvasUpdate (s : ThreadState) (canvas_type field action : String)
    (new_value old_value : Option String) (reason freshId : String) :
    ThreadState × ProposeOutcome :=
  match CanvasType.ofString? canvas_type with
  | none => (s, .exn ("ValueError: " ++ canvas_type ++ " is not a valid CanvasType"))
  | some ct =>
    match ChangeAction.ofString? action with
    | none => (s, .exn ("ValueError: " ++ action ++ " is not a valid ChangeAction"))
    | some a =>
      proposeWithChange s (mkProposedChange freshId ct field a old_value new_value reason)

/-- Loop body of tools.apply_proposed_changes: process ids in order over
the pending list captured at entry, threading the state; the third
component is some message when an uncaught ValueError aborts the loop. -/
def applyBatchGo (pending0 : List ProposedChange) (s : ThreadState) :
    List String → ThreadState × List String × Option String
  | [] => (s, [], none)
  | cid :: rest =>
    match pending0.find? (fun c => c.id = cid) with
    | none =>
      let r := applyBatchGo pending0 s rest
      (r.1, ("Change " ++ cid ++ " not found in pending changes.") :: r.2.1, r.2.2)
    | some c =>
      if s.versions.any (fun v => v.change_hash = c.change_hash) then
        let r := applyBatchGo pending0 s rest
        (r.1, ("Change " ++ cid ++ " already applied (duplicate). Skipping.") :: r.2.1, r.2.2)
      else
        match applySingleChange s c with
        | (s2, .exn m) => (s2, [], some m)
        | (s2, .ok m) =>
          let r := applyBatchGo pending0 s2 rest
          (r.1, m :: r.2.1, r.2.2)
        | (s2, .err m) =>
          let r := applyBatchGo pending0 s2 rest
          (r.1, m :: r.2.1, r.2.2)

/-- Outcome of tools.apply_proposed_changes: done carries the per-id
result lines; exnAborted models the uncaught ValueError escaping the
loop, in which case pending_changes is left unpruned. -/
inductive BatchOutcome where
  | done (results : List String)
  | exnAborted (results : List String) (msg : String)
deriving DecidableEq, Repr

/-- Tail of tools.apply_proposed_changes: after the loop every id of the
batch is removed from pending_changes, unless an uncaught ValueError
aborted the loop first. -/
def applyBatchFinish (s : ThreadState) (pending : List ProposedChange)
    (ids : List String) : ThreadState × BatchOutcome :=
  match applyBatchGo pending s ids with
  | (s2, rs, none) =>
    ({ s2 with pending_changes := pending.filter (fun c => ¬ c.id ∈ ids) }, .done rs)
  | (s2, rs, some m) => (s2, .exnAborted rs m)

/-- tools.apply_proposed_changes: the pending list is captured at entry
and an empty change_ids list means all currently pending changes. -/
def applyProposedChanges (s : ThreadState) (change_ids : List String) :
    ThreadState × BatchOutcome :=
  applyBatchFinish s s.pending_changes
    (if change_ids = [] then s.pending_changes.map (fun c => c.id) else change_ids)

/-- tools.undo_last_change: pop the undo stack, push onto the redo stack,
drop every version whose hash matches the popped entry, restore the
canvas named by the entry to its snapshot_before. -/
def undoLastChange (s : ThreadState) : ThreadState × String :=
  match s.undo_stack.getLast? with
  | none => (s, "Nothing to undo.")
  | some v =>
    (restoreSnap
      { s with undo_stack := s.undo_stack.dropLast,
               redo_stack := s.redo_stack ++ [v],
               versions := s.versions.filter (fun w => ¬ w.change_hash = v.change_hash) }
      v.canvas_type v.snapshot_before,
     "Undone: " ++ v.change_description)

/-- tools.redo_change: pop the redo stack, push onto the undo stack,
re-append the entry to the version log if its hash is not already there,
restore the canvas to its snapshot_after. -/
def redoChange (s : ThreadState) : ThreadState × String :=
  match s.redo_stack.getLast? with
  | none => (s, "Nothing to redo.")
  | some v =>
    (restoreSnap
      { s with redo_stack := s.redo_stack.dropLast,
               undo_stack := s.undo_stack ++ [v],
               versions := if s.versions.any (fun w => w.change_hash = v.change_hash)
                           then s.versions else s.versions ++ [v] }
      v.canvas_type v.snapshot_after,
     "Redone: " ++ v.change_description)

/-- The snapshot of the canvas currently selected by a canvas type, as
taken by applySingleChange before and after the mutation. -/
def snapOf (s : ThreadState) : CanvasType → Snapshot
  | .bmc => .bmcSnap s.bmc
  | .vpc => .vpcSnap s.vpc
  | .segments => .segSnap s.segments

set_option maxHeartbeats 1000000 in
theorem bmcSetGet (c : BMCCanvas) (f : String) (l : List String)
    (h : c.get? f = some l) : c.set f l = c := by
  unfold BMCCanvas.get? at h
  unfold BMCCanvas.set
  split_ifs at h ⊢ <;> injection h with h2 <;> rw [← h2]

set_option maxHeartbeats 1000000 in
theorem vpcSetGet (c : VPCCanvas) (f : String) (l : List CanvasItem)
    (h : c.get? f = some l) : c.set f l = c := by
  unfold VPCCanvas.get? at h
  unfold VPCCanvas.set
  split_ifs at h ⊢ <;> injection h with h2 <;> rw [← h2]

theorem restoreSnap_snapOf (X s : ThreadState) (ct : CanvasType) :
    restoreSnap X ct (snapOf s ct) =
      { X with bmc := if ct = .bmc then s.bmc else X.bmc,
               vpc := if ct = .vpc then s.vpc else X.vpc,
               segments := if ct = .segments then s.segments else X.segments } := by
  cases ct <;> simp [restoreSnap, snapOf]

theorem canvasTypeRoundtrip (ct : CanvasType) : CanvasType.ofString? ct.toStr = some ct := by
  cases ct <;> rfl

theorem changeActionRoundtrip (a : ChangeAction) : ChangeAction.ofString? a.toStr = some a := by
  cases a <;> rfl


/-- Shape of a successful applySingleChange: the result state is the
input with one version entry recorded, the canvas of the targeted type
possibly replaced, and every other field untouched; the snapshots of the
new entry are the targeted canvas before and after the mutation. -/
theorem applySingle_ok (s : ThreadState) (c : ProposedChange) (s2 : ThreadState) (m : String)
    (h : applySingleChange s c = (s2, .ok m)) :
    ∃ v : VersionEntry,
      s2.versions = s.versions ++ [v] ∧
      s2.undo_stack = s.undo_stack ++ [v] ∧
      s2.redo_stack = [] ∧
      s2.pending_changes = s.pending_changes ∧
      s2.rejected_changes = s.rejected_changes ∧
      s2.auto_mode = s.auto_mode ∧
      s2.action_log = s.action_log ∧
      v.change_hash = c.change_hash ∧
      v.canvas_type = c.canvas_type ∧
      v.snapshot_before = snapOf s c.canvas_type ∧
      v.snapshot_after = snapOf s2 c.canvas_type ∧
      ((¬ c.canvas_type = .bmc) → s2.bmc = s.bmc) ∧
      ((¬ c.canvas_type = .vpc) → s2.vpc = s.vpc) ∧
      ((¬ c.canvas_type = .segments) → s2.segments = s.segments) := by
  obtain ⟨cid, cct, cf, ca, cov, cnv, cr, chash⟩ := c
  cases cct
  · simp only [applySingleChange] at h
    split at h
    · exact absurd h (by simp)
    · rw [Prod.mk.injEq] at h
      obtain ⟨hs, hm⟩ := h
      subst hs
      exact ⟨_, rfl, rfl, rfl, rfl, rfl, rfl, rfl, rfl, rfl, rfl, rfl,
        fun hne => absurd rfl hne, fun _ => rfl, fun _ => rfl⟩
  · simp only [applySingleChange] at h
    split at h
    · exact absurd h (by simp)
    · rw [Prod.mk.injEq] at h
      obtain ⟨hs, hm⟩ := h
      subst hs
      exact ⟨_, rfl, rfl, rfl, rfl, rfl, rfl, rfl, rfl, rfl, rfl, rfl,
        fun _ => rfl, fun hne => absurd rfl hne, fun _ => rfl⟩
  · simp only [applySingleChange] at h
    split_ifs at h with h1 h2 h3
    all_goals try (split at h)
    all_goals
      first
        | (rw [Prod.mk.injEq] at h
           obtain ⟨hs, hm⟩ := h
           subst hs
           exact ⟨_, rfl, rfl, rfl, rfl, rfl, rfl, rfl, rfl, rfl, rfl, rfl,
             fun _ => rfl, fun _ => rfl, fun hne => absurd rfl hne⟩)
        | exact absurd h (by simp)

/-- A failing applySingleChange leaves the state unchanged. -/
theorem applySingle_err (s : ThreadState) (c : ProposedChange) (s2 : ThreadState) (m : String)
    (h : applySingleChange s c = (s2, .err m)) : s2 = s := by
  obtain ⟨cid, cct, cf, ca, cov, cnv, cr, chash⟩ := c
  cases cct <;> simp only [applySingleChange] at h
  · split at h
    · rw [Prod.mk.injEq] at h
      exact h.1.symm
    · exact absurd h (by simp)
  · split at h
    · rw [Prod.mk.injEq] at h
      exact h.1.symm
    · exact absurd h (by simp)
  · split_ifs at h with h1 h2 h3
    all_goals try (split at h)
    all_goals
      first
        | (rw [Prod.mk.injEq] at h
           exact h.1.symm)
        | exact absurd h (by simp)

/-- An applySingleChange raising the uncaught importance ValueError
leaves the state unchanged. -/
theorem applySingle_exn (s : ThreadState) (c : ProposedChange) (s2 : ThreadState) (m : String)
    (h : applySingleChange s c = (s2, .exn m)) : s2 = s := by
  obtain ⟨cid, cct, cf, ca, cov, cnv, cr, chash⟩ := c
  cases cct <;> simp only [applySingleChange] at h
  · split at h <;> exact absurd h (by simp)
  · split at h <;> exact absurd h (by simp)
  · split_ifs at h with h1 h2 h3
    all_goals try (split at h)
    all_goals
      first
        | (rw [Prod.mk.injEq] at h
           exact h.1.symm)
        | exact absurd h (by simp)

theorem restoreSnap_versions (X : ThreadState) (ct : CanvasType) (sn : Snapshot) :
    (restoreSnap X ct sn).versions = X.versions := by
  cases ct <;> cases sn <;> rfl

theorem restoreSnap_undo (X : ThreadState) (ct : CanvasType) (sn : Snapshot) :
    (restoreSnap X ct sn).undo_stack = X.undo_stack := by
  cases ct <;> cases sn <;> rfl

theorem restoreSnap_redo (X : ThreadState) (ct : CanvasType) (sn : Snapshot) :
    (restoreSnap X ct sn).redo_stack = X.redo_stack := by
  cases ct <;> cases sn <;> rfl

theorem restoreSnap_pending (X : ThreadState) (ct : CanvasType) (sn : Snapshot) :
    (restoreSnap X ct sn).pending_changes = X.pending_changes := by
  cases ct <;> cases sn <;> rfl

theorem restoreSnap_auto (X : ThreadState) (ct : CanvasType) (sn : Snapshot) :
    (restoreSnap X ct sn).auto_mode = X.auto_mode := by
  cases ct <;> cases sn <;> rfl

/-- One operation of the store, as named by the undo/redo and idempotency
claims: propose, applyApproved, undo, redo. -/
inductive StoreOp where
  | propose (canvas_type field action : String) (new_value old_value : Option String)
      (reason freshId : String)
  | applyApproved (ids : List String)
  | undo
  | redo

/-- Run one store operation, keeping only the state. -/
def runOp (s : ThreadState) : StoreOp → ThreadState
  | .propose ct f a nv ov r fid => (proposeCanvasUpdate s ct f a nv ov r fid).1
  | .applyApproved ids => (applyProposedChanges s ids).1
  | .undo => (undoLastChange s).1
  | .redo => (redoChange s).1

/-- Run a sequence of store operations. -/
def runOps (s : ThreadState) (ops : List StoreOp) : ThreadState :=
  ops.foldl runOp s

/-- The version log of a thread never holds two entries with the same
fingerprint. -/
def hashesNodup (s : ThreadState) : Prop :=
  (s.versions.map (fun v => v.change_hash)).Nodup

theorem nodup_concat_hash {l : List String} {a : String}
    (hl : l.Nodup) (ha : ¬ a ∈ l) : (l ++ [a]).Nodup := by
  simp [List.nodup_append, hl, ha]


theorem applySingle_nodup (s : ThreadState) (c : ProposedChange) (s2 : ThreadState)
    (o : ApplyOutcome) (happ : applySingleChange s c = (s2, o))
    (hfresh : (s.versions.any (fun v => v.change_hash = c.change_hash)) = false)
    (hnd : hashesNodup s) : hashesNodup s2 := by
  cases o with
  | ok m =>
    obtain ⟨v, hv, -, -, -, -, -, -, hvh, -⟩ := applySingle_ok s c s2 m happ
    rw [List.any_eq_false] at hfresh
    unfold hashesNodup
    rw [hv, List.map_append]
    apply nodup_concat_hash hnd
    rw [List.mem_map]
    rintro ⟨w, hw, hwh⟩
    simp only [] at hwh
    have hf := hfresh w hw
    rw [hvh] at hwh
    exact hf (by simp [hwh])
  | err m => rw [applySingle_err s c s2 m happ]; exact hnd
  | exn m => rw [applySingle_exn s c s2 m happ]; exact hnd

theorem proposeWithChange_nodup (s : ThreadState) (c : ProposedChange)
    (hnd : hashesNodup s) : hashesNodup (proposeWithChange s c).1 := by
  unfold proposeWithChange
  split_ifs with hdup hauto
  · exact hnd
  · split
    · next s2 m heq =>
      exact applySingle_nodup _ _ _ _ heq (by simpa using hdup) hnd
    · next s2 o hne heq =>
      exact applySingle_nodup _ _ _ _ heq (by simpa using hdup) hnd
  · exact hnd

theorem propose_nodup (s : ThreadState) (ct f a : String) (nv ov : Option String)
    (r fid : String) (hnd : hashesNodup s) :
    hashesNodup (proposeCanvasUpdate s ct f a nv ov r fid).1 := by
  unfold proposeCanvasUpdate
  split
  · exact hnd
  · split
    · exact hnd
    · exact proposeWithChange_nodup _ _ hnd

theorem batchGo_nodup (pending0 : List ProposedChange) (ids : List String) :
    ∀ s : ThreadState, hashesNodup s → hashesNodup (applyBatchGo pending0 s ids).1 := by
  induction ids with
  | nil => intro s hnd; exact hnd
  | cons cid rest ih =>
    intro s hnd
    unfold applyBatchGo
    split
    · exact ih s hnd
    · next c hfind =>
      split_ifs with hdup
      · exact ih s hnd
      · split
        · next s2 m heq =>
          rw [applySingle_exn _ _ _ _ heq]
          exact hnd
        · next s2 m heq =>
          exact ih s2 (applySingle_nodup _ _ _ _ heq (by simpa using hdup) hnd)
        · next s2 m heq =>
          exact ih s2 (applySingle_nodup _ _ _ _ heq (by simpa using hdup) hnd)

theorem applyApproved_nodup (s : ThreadState) (ids : List String)
    (hnd : hashesNodup s) : hashesNodup (applyProposedChanges s ids).1 := by
  unfold applyProposedChanges applyBatchFinish
  split
  · next s2 rs heq =>
    have h2 := batchGo_nodup s.pending_changes
      (if ids = [] then s.pending_changes.map (fun c => c.id) else ids) s hnd
    rw [heq] at h2
    exact h2
  · next s2 rs m heq =>
    have h2 := batchGo_nodup s.pending_changes
      (if ids = [] then s.pending_changes.map (fun c => c.id) else ids) s hnd
    rw [heq] at h2
    exact h2

theorem undo_nodup (s : ThreadState) (hnd : hashesNodup s) :
    hashesNodup (undoLastChange s).1 := by
  unfold undoLastChange
  split
  · exact hnd
  · next v hlast =>
    unfold hashesNodup
    rw [restoreSnap_versions]
    exact hnd.sublist ((List.filter_sublist _).map _)

theorem redo_nodup (s : ThreadState) (hnd : hashesNodup s) :
    hashesNodup (redoChange s).1 := by
  unfold redoChange
  split
  · exact hnd
  · next v hlast =>
    unfold hashesNodup
    rw [restoreSnap_versions]
    split_ifs with hdup
    · exact hnd
    · rw [List.map_append]
      apply nodup_concat_hash hnd
      rw [List.mem_map]
      rintro ⟨w, hw, hwh⟩
      rw [Bool.not_eq_true, List.any_eq_false] at hdup
      exact hdup w hw (by simp [hwh])

theorem runOp_nodup (s : ThreadState) (op : StoreOp) (hnd : hashesNodup s) :
    hashesNodup (runOp s op) := by
  cases op with
  | propose ct f a nv ov r fid => exact propose_nodup s ct f a nv ov r fid hnd
  | applyApproved ids => exact applyApproved_nodup s ids hnd
  | undo => exact undo_nodup s hnd
  | redo => exact redo_nodup s hnd

/-- Raw inputs of one propose call (the tool arguments plus the uuid the
constructor would generate). -/
structure ChangeInput where
  canvas_type : String
  field : String
  action : String
  new_value : Option String
  old_value : Option String
  reason : String
  freshId : String
deriving DecidableEq, Repr

/-- Recognize the outcome of a successfully applied auto-mode propose. -/
def isAutoOk : ProposeOutcome → Bool
  | .autoApplied (.ok _) => true
  | _ => false

/-- Run a propose in auto mode and keep the state only when the change
was actually applied (not a duplicate, not an error, not an exception). -/
def proposeAutoOk? (s : ThreadState) (ci : ChangeInput) : Option ThreadState :=
  if isAutoOk (proposeCanvasUpdate s ci.canvas_type ci.field ci.action ci.new_value
      ci.old_value ci.reason ci.freshId).2 then
    some (proposeCanvasUpdate s ci.canvas_type ci.field ci.action ci.new_value
      ci.old_value ci.reason ci.freshId).1
  else none

/-- Apply a list of changes through auto-mode propose, all succeeding. -/
def applyChain : ThreadState → List ChangeInput → Option ThreadState
  | s, [] => some s
  | s, ci :: rest =>
    match proposeAutoOk? s ci with
    | some s2 => applyChain s2 rest
    | none => none

/-- Call undo n times. -/
def undoTimes : Nat → ThreadState → ThreadState
  | 0, s => s
  | n + 1, s => (undoLastChange (undoTimes n s)).1

/-- Call redo n times. -/
def redoTimes : Nat → ThreadState → ThreadState
  | 0, s => s
  | n + 1, s => redoTimes n (redoChange s).1


/-- Characterization of a successful auto-mode propose: a fresh version
entry is appended to the log and the undo stack, the redo stack is
cleared, only the targeted canvas changes, and the snapshots of the new
entry are that canvas before and after. -/
theorem proposeAutoOk_spec (s s1 : ThreadState) (ci : ChangeInput)
    (h : proposeAutoOk? s ci = some s1) :
    ∃ v : VersionEntry,
      s1.versions = s.versions ++ [v] ∧
      s1.undo_stack = s.undo_stack ++ [v] ∧
      s1.redo_stack = [] ∧
      s1.pending_changes = s.pending_changes ∧
      s1.rejected_changes = s.rejected_changes ∧
      s1.auto_mode = s.auto_mode ∧
      s1.action_log = s.action_log ∧
      (∀ w ∈ s.versions, ¬ w.change_hash = v.change_hash) ∧
      v.snapshot_before = snapOf s v.canvas_type ∧
      v.snapshot_after = snapOf s1 v.canvas_type ∧
      ((¬ v.canvas_type = .bmc) → s1.bmc = s.bmc) ∧
      ((¬ v.canvas_type = .vpc) → s1.vpc = s.vpc) ∧
      ((¬ v.canvas_type = .segments) → s1.segments = s.segments) := by
  unfold proposeAutoOk? at h
  split_ifs at h with hok
  · injection h with h1
    revert hok h1
    unfold proposeCanvasUpdate
    split
    · intro hok h1
      exact absurd hok (by simp [isAutoOk])
    · split
      · intro hok h1
        exact absurd hok (by simp [isAutoOk])
      · unfold proposeWithChange
        split_ifs with hdup
        · intro hok h1
          exact absurd hok (by simp [isAutoOk])
        · split
          · next s2 m heq =>
            intro hok h1
            exact absurd hok (by simp [isAutoOk])
          · next s2 o hne heq =>
            intro hok h1
            cases o with
            | ok m =>
              obtain ⟨v, hver, hundo, hredo, hpend, hrej, hauto2, hlog, hvh, hvct, hbef,
                haft, hob, hov, hos⟩ := applySingle_ok s _ s2 m heq
              refine ⟨v, ?_⟩
              rw [← h1]
              rw [hvct]
              refine ⟨hver, hundo, hredo, hpend, hrej, hauto2, hlog, ?_, hbef, haft,
                hob, hov, hos⟩
              intro w hw hwh
              rw [Bool.not_eq_true, List.any_eq_false] at hdup
              exact hdup w hw (by simp [hwh, hvh])
            | err m =>
              exact absurd hok (by simp [isAutoOk])
            | exn m =>
              exact (hne m rfl).elim
        · intro hok h1
          exact absurd hok (by simp [isAutoOk])

theorem roundtrip_step (s s1 : ThreadState) (ci : ChangeInput)
    (h : proposeAutoOk? s ci = some s1) (r : List VersionEntry) :
    ∃ v : VersionEntry,
      (undoLastChange { s1 with redo_stack := r }).1 = { s with redo_stack := r ++ [v] } ∧
      (redoChange { s with redo_stack := r ++ [v] }).1 = { s1 with redo_stack := r } := by
  obtain ⟨v, hver, hundo, hredo, hpend, hrej, hauto2, hlog, hfresh, hbef, haft,
    hob, hov, hos⟩ := proposeAutoOk_spec s s1 ci h
  have hfil : List.filter (fun w => ¬ w.change_hash = v.change_hash) (s.versions ++ [v])
      = s.versions := by
    rw [List.filter_append]
    have h1 : List.filter (fun w => ¬ w.change_hash = v.change_hash) s.versions = s.versions :=
      List.filter_eq_self.mpr (fun w hw => by simp [hfresh w hw])
    have h2 : List.filter (fun w => ¬ w.change_hash = v.change_hash)
        ([v] : List VersionEntry) = [] := by simp
    rw [h1, h2, List.append_nil]
  have hany : (s.versions.any (fun w => w.change_hash = v.change_hash)) = false :=
    List.any_eq_false.mpr (fun w hw => by simp [hfresh w hw])
  have hbmc : (if v.canvas_type = .bmc then s.bmc else s1.bmc) = s.bmc := by
    by_cases hc : v.canvas_type = .bmc
    · simp [hc]
    · simp [hc, hob hc]
  have hvpc : (if v.canvas_type = .vpc then s.vpc else s1.vpc) = s.vpc := by
    by_cases hc : v.canvas_type = .vpc
    · simp [hc]
    · simp [hc, hov hc]
  have hseg : (if v.canvas_type = .segments then s.segments else s1.segments) = s.segments := by
    by_cases hc : v.canvas_type = .segments
    · simp [hc]
    · simp [hc, hos hc]
  refine ⟨v, ?_, ?_⟩
  · rw [show ({ s1 with redo_stack := r } : ThreadState) =
        { bmc := s1.bmc, vpc := s1.vpc, segments := s1.segments,
          versions := s.versions ++ [v], pending_changes := s.pending_changes,
          rejected_changes := s.rejected_changes, undo_stack := s.undo_stack ++ [v],
          redo_stack := r, auto_mode := s.auto_mode, action_log := s.action_log } from by
      rw [ThreadState.ext_iff]
      simp [hver, hundo, hpend, hrej, hauto2, hlog]]
    unfold undoLastChange
    simp only [List.getLast?_concat, List.dropLast_concat]
    rw [hbef, restoreSnap_snapOf]
    simp only [hfil, hbmc, hvpc, hseg]
  · rw [show ({ s with redo_stack := r ++ [v] } : ThreadState) =
        { bmc := s.bmc, vpc := s.vpc, segments := s.segments,
          versions := s.versions, pending_changes := s.pending_changes,
          rejected_changes := s.rejected_changes, undo_stack := s.undo_stack,
          redo_stack := r ++ [v], auto_mode := s.auto_mode, action_log := s.action_log } from by
      rw [ThreadState.ext_iff]
      simp]
    unfold redoChange
    simp only [List.getLast?_concat, List.dropLast_concat, hany]
    rw [haft, restoreSnap_snapOf]
    rw [ThreadState.ext_iff]
    constructor
    · by_cases hc : v.canvas_type = .bmc
      · simp [hc]
      · simp [hc, hob hc]
    constructor
    · by_cases hc : v.canvas_type = .vpc
      · simp [hc]
      · simp [hc, hov hc]
    constructor
    · by_cases hc : v.canvas_type = .segments
      · simp [hc]
      · simp [hc, hos hc]
    exact ⟨hver.symm, hpend.symm, hrej.symm, hundo.symm, rfl, hauto2.symm, hlog.symm⟩

/-- Undoing then redoing an uninterrupted chain of applied changes walks
the redo stack back and forth, restoring the full state. -/
theorem chain_roundtrip (cis : List ChangeInput) :
    ∀ s sN : ThreadState, s.redo_stack = [] → applyChain s cis = some sN →
    ∃ V : List VersionEntry,
      undoTimes cis.length sN = { s with redo_stack := V } ∧
      redoTimes cis.length { s with redo_stack := V } = sN := by
  induction cis with
  | nil =>
    intro s sN hr h
    injection h with h1
    subst h1
    refine ⟨[], ?_, ?_⟩
    · rw [ThreadState.ext_iff]
      simp [undoTimes, hr]
    · rw [ThreadState.ext_iff]
      simp [redoTimes, hr]
  | cons ci rest ih =>
    intro s sN hr h
    unfold applyChain at h
    cases hp : proposeAutoOk? s ci with
    | none =>
      rw [hp] at h
      exact absurd h (by simp)
    | some s2 =>
      rw [hp] at h
      have hr2 : s2.redo_stack = [] := by
        obtain ⟨v, -, -, hredo, -⟩ := proposeAutoOk_spec s s2 ci hp
        exact hredo
      obtain ⟨V1, hU, hR⟩ := ih s2 sN hr2 h
      obtain ⟨v, hstep1, hstep2⟩ := roundtrip_step s s2 ci hp V1
      refine ⟨V1 ++ [v], ?_, ?_⟩
      · show (undoLastChange (undoTimes rest.length sN)).1 = _
        rw [hU]
        exact hstep1
      · show redoTimes rest.length (redoChange { s with redo_stack := V1 ++ [v] }).1 = sN
        rw [hstep2]
        exact hR

/-- C1: for every thread state reachable by any sequence of the store
operations propose, applyApproved, undo and redo from a state whose
version log has pairwise-distinct fingerprints (as the seeded initial
state does), the version log never contains two entries with the same
fingerprint: propose and applyApproved skip a change whose fingerprint
is already present, and redo re-appends an entry only if its fingerprint
is not already present. -/
theorem c1_no_duplicate_fingerprints (s0 : ThreadState) (ops : List StoreOp)
    (h0 : hashesNodup s0) : hashesNodup (runOps s0 ops) := by
  induction ops generalizing s0 with
  | nil => exact h0
  | cons op rest ih => exact ih (runOp s0 op) (runOp_nodup s0 op h0)

theorem c1_no_duplicate_fingerprints_witness :
    hashesNodup initialState ∧
    hashesNodup (runOps initialState
      [StoreOp.propose "bmc" "key_partners" "add" (some "Acme Cloud") none "ev" "id1",
       StoreOp.applyApproved ["id1"],
       StoreOp.propose "vpc" "pains" "add" (some "Slow iteration") none "ev" "id2",
       StoreOp.undo,
       StoreOp.redo]) :=
  ⟨by unfold hashesNodup; decide,
   c1_no_duplicate_fingerprints initialState
     [StoreOp.propose "bmc" "key_partners" "add" (some "Acme Cloud") none "ev" "id1",
      StoreOp.applyApproved ["id1"],
      StoreOp.propose "vpc" "pains" "add" (some "Slow iteration") none "ev" "id2",
      StoreOp.undo,
      StoreOp.redo]
     (by unfold hashesNodup; decide)⟩

/-- C2: for every sequence of N changes successfully applied on a thread
(through auto-mode propose), calling undo N times and then redo N times
restores every canvas content to its post-apply state and restores the
version log fingerprint set (in fact the whole fingerprint list) to what
it was before the undo sequence. -/
theorem c2_undo_redo_roundtrip (s0 sN : ThreadState) (cis : List ChangeInput)
    (h : applyChain s0 cis = some sN) :
    (redoTimes cis.length (undoTimes cis.length sN)).bmc = sN.bmc ∧
    (redoTimes cis.length (undoTimes cis.length sN)).vpc = sN.vpc ∧
    (redoTimes cis.length (undoTimes cis.length sN)).segments = sN.segments ∧
    (redoTimes cis.length (undoTimes cis.length sN)).versions.map (fun v => v.change_hash)
      = sN.versions.map (fun v => v.change_hash) := by
  cases cis with
  | nil =>
    injection h with h1
    subst h1
    exact ⟨rfl, rfl, rfl, rfl⟩
  | cons ci rest =>
    unfold applyChain at h
    cases hp : proposeAutoOk? s0 ci with
    | none =>
      rw [hp] at h
      exact absurd h (by simp)
    | some s2 =>
      rw [hp] at h
      have hr2 : s2.redo_stack = [] := by
        obtain ⟨v, -, -, hredo, -⟩ := proposeAutoOk_spec s0 s2 ci hp
        exact hredo
      obtain ⟨V1, hU, hR⟩ := chain_roundtrip rest s2 sN hr2 h
      obtain ⟨v, hstep1, hstep2⟩ := roundtrip_step s0 s2 ci hp V1
      have hfull : redoTimes (ci :: rest).length (undoTimes (ci :: rest).length sN) = sN := by
        have h1 : undoTimes (ci :: rest).length sN = { s0 with redo_stack := V1 ++ [v] } := by
          show (undoLastChange (undoTimes rest.length sN)).1 = _
          rw [hU]
          exact hstep1
        rw [h1]
        show redoTimes rest.length (redoChange { s0 with redo_stack := V1 ++ [v] }).1 = sN
        rw [hstep2]
        exact hR
      rw [hfull]
      exact ⟨rfl, rfl, rfl, rfl⟩

def c2ChainInputs : List ChangeInput :=
  [{ canvas_type := "bmc", field := "key_partners", action := "add",
     new_value := some "Acme Cloud", old_value := none, reason := "ev", freshId := "id1" },
   { canvas_type := "vpc", field := "pains", action := "add",
     new_value := some "Slow iteration", old_value := none, reason := "ev", freshId := "id2" },
   { canvas_type := "segments", field := "persona", action := "update",
     new_value := some "Senior engineer", old_value := some "Technical Founders",
     reason := "ev", freshId := "id3" }]

def c2ChainResult : ThreadState :=
  (applyChain { initialState with auto_mode := true } c2ChainInputs).getD initialState

theorem c2_undo_redo_roundtrip_witness :
    applyChain { initialState with auto_mode := true } c2ChainInputs = some c2ChainResult ∧
    ((redoTimes c2ChainInputs.length (undoTimes c2ChainInputs.length c2ChainResult)).bmc
        = c2ChainResult.bmc ∧
     (redoTimes c2ChainInputs.length (undoTimes c2ChainInputs.length c2ChainResult)).vpc
        = c2ChainResult.vpc ∧
     (redoTimes c2ChainInputs.length (undoTimes c2ChainInputs.length c2ChainResult)).segments
        = c2ChainResult.segments ∧
     (redoTimes c2ChainInputs.length (undoTimes c2ChainInputs.length c2ChainResult)).versions.map
          (fun v => v.change_hash)
        = c2ChainResult.versions.map (fun v => v.change_hash)) :=
  ⟨by decide,
   c2_undo_redo_roundtrip { initialState with auto_mode := true } c2ChainResult c2ChainInputs
     (by decide)⟩

theorem barData : ("|" : String).data = ['|'] := rfl

theorem computeHash_data (ct : CanvasType) (f : String) (a : ChangeAction) (nv : Option String) :
    (computeHash ct f a nv).data
      = ct.toStr.data ++ '|' :: (f.data ++ '|' :: (a.toStr.data ++ '|' :: (nv.getD "").data)) := by
  unfold computeHash
  simp [String.data_append, barData]

theorem computeHash_ct_inj (ct ct2 : CanvasType) (f : String) (a : ChangeAction)
    (nv : Option String) (hne : ¬ ct = ct2) :
    ¬ computeHash ct f a nv = computeHash ct2 f a nv := by
  intro heq
  have hd := congrArg String.data heq
  rw [computeHash_data, computeHash_data] at hd
  have hpre := List.append_cancel_right hd
  cases ct <;> cases ct2 <;> simp [CanvasType.toStr] at hpre hne ⊢

theorem computeHash_field_inj (ct : CanvasType) (f f2 : String) (a : ChangeAction)
    (nv : Option String) (hne : ¬ f = f2) :
    ¬ computeHash ct f a nv = computeHash ct f2 a nv := by
  intro heq
  have hd := congrArg String.data heq
  rw [computeHash_data, computeHash_data] at hd
  have h1 := List.append_cancel_left hd
  injection h1 with h2 h3
  exact hne (String.ext (List.append_cancel_right h3))

theorem computeHash_action_inj (ct : CanvasType) (f : String) (a a2 : ChangeAction)
    (nv : Option String) (hne : ¬ a = a2) :
    ¬ computeHash ct f a nv = computeHash ct f a2 nv := by
  intro heq
  have hd := congrArg String.data heq
  rw [computeHash_data, computeHash_data] at hd
  have h1 := List.append_cancel_left hd
  injection h1 with h2 h3
  have h4 := List.append_cancel_left h3
  injection h4 with h5 h6
  have h7 := List.append_cancel_right h6
  cases a <;> cases a2 <;> simp [ChangeAction.toStr] at h7 hne ⊢

theorem computeHash_nv_inj (ct : CanvasType) (f : String) (a : ChangeAction)
    (nv nv2 : Option String) (hne : ¬ nv.getD "" = nv2.getD "") :
    ¬ computeHash ct f a nv = computeHash ct f a nv2 := by
  intro heq
  have hd := congrArg String.data heq
  rw [computeHash_data, computeHash_data] at hd
  have h1 := List.append_cancel_left hd
  injection h1 with h2 h3
  have h4 := List.append_cancel_left h3
  injection h4 with h5 h6
  have h7 := List.append_cancel_left h6
  injection h7 with h8 h9
  exact hne (String.ext h9)

/-- C3 counterexample: the claim says constructions differing in
new_value always yield different fingerprints, but a None new_value and
an empty-string new_value differ while colliding on the fingerprint,
because compute_hash coalesces both to the empty string. -/
theorem c3_fingerprint_counterexample :
    ¬ (some "" : Option String) = (none : Option String) ∧
    (mkProposedChange "i1" .bmc "key_partners" .add none (some "") "r").change_hash
      = (mkProposedChange "i2" .bmc "key_partners" .add none none "r").change_hash :=
  ⟨by simp, rfl⟩

/-- C3 (amended): constructing a ChangeRecord is deterministic in its
fingerprint: identical (canvas_type, field, action, new_value) always
yield the same fingerprint, which never depends on old_value, reason or
the generated id; two constructions that differ in exactly one of
canvas_type, field or action yield different fingerprints, and two that
differ in new_value do too, unless the two new_values coalesce to the
same string under the None-to-empty-string rule of compute_hash. -/
theorem c3_fingerprint_determinism (ct ct2 : CanvasType) (f f2 : String)
    (a a2 : ChangeAction) (nv nv2 : Option String) :
    (∀ id1 id2 ov1 ov2 r1 r2,
       (mkProposedChange id1 ct f a ov1 nv r1).change_hash
         = (mkProposedChange id2 ct f a ov2 nv r2).change_hash) ∧
    (¬ ct = ct2 → ¬ computeHash ct f a nv = computeHash ct2 f a nv) ∧
    (¬ f = f2 → ¬ computeHash ct f a nv = computeHash ct f2 a nv) ∧
    (¬ a = a2 → ¬ computeHash ct f a nv = computeHash ct f a2 nv) ∧
    (¬ nv.getD "" = nv2.getD "" → ¬ computeHash ct f a nv = computeHash ct f a nv2) :=
  ⟨fun _ _ _ _ _ _ => rfl,
   computeHash_ct_inj ct ct2 f a nv,
   computeHash_field_inj ct f f2 a nv,
   computeHash_action_inj ct f a a2 nv,
   computeHash_nv_inj ct f a nv nv2⟩

theorem c3_fingerprint_determinism_witness :
    (mkProposedChange "w1" .bmc "channels" .add (some "old A") (some "A") "r1").change_hash
      = (mkProposedChange "w2" .bmc "channels" .add (some "old B") (some "A") "r2").change_hash ∧
    ¬ computeHash .bmc "channels" .add (some "A") = computeHash .vpc "channels" .add (some "A") ∧
    ¬ computeHash .bmc "channels" .add (some "A") = computeHash .bmc "pains" .add (some "A") ∧
    ¬ computeHash .bmc "channels" .add (some "A") = computeHash .bmc "channels" .update (some "A") ∧
    ¬ computeHash .bmc "channels" .add (some "A") = computeHash .bmc "channels" .add (some "B") :=
  ⟨(c3_fingerprint_determinism .bmc .vpc "channels" "pains" .add .update (some "A")
      (some "B")).1 "w1" "w2" (some "old A") (some "old B") "r1" "r2",
   (c3_fingerprint_determinism .bmc .vpc "channels" "pains" .add .update (some "A")
      (some "B")).2.1 (by decide),
   (c3_fingerprint_determinism .bmc .vpc "channels" "pains" .add .update (some "A")
      (some "B")).2.2.1 (by decide),
   (c3_fingerprint_determinism .bmc .vpc "channels" "pains" .add .update (some "A")
      (some "B")).2.2.2.1 (by decide),
   (c3_fingerprint_determinism .bmc .vpc "channels" "pains" .add .update (some "A")
      (some "B")).2.2.2.2 (by decide)⟩

/-- C4 (code bug evidence): a segments update of the importance field
with a value outside the SegmentImportance enum does not come back as a
structured InvalidEnum outcome; SegmentImportance(new_value) raises a
ValueError that escapes propose_canvas_update uncaught (modelled by the
exn outcome), although the canvas state itself is left unmutated. -/
theorem c4_importance_exception_escapes :
    proposeCanvasUpdate { initialState with auto_mode := true } "segments" "importance"
        "update" (some "extremely_important") (some "Technical Founders") "evidence" "c1"
      = ({ initialState with auto_mode := true },
         .exn "ValueError: extremely_important is not a valid SegmentImportance") := by
  decide

/-- Thread state with three manually proposed pending changes: a bmc add,
a segments importance update carrying an invalid enum value, and a second
bmc add. -/
def c6StateWithPending : ThreadState :=
  (proposeCanvasUpdate
    (proposeCanvasUpdate
      (proposeCanvasUpdate initialState "bmc" "key_partners" "add" (some "Acme Cloud") none
        "r1" "id1").1
      "segments" "importance" "update" (some "extremely_important") (some "Technical Founders")
      "r2" "id2").1
    "bmc" "key_partners" "add" (some "Beta Corp") none "r3" "id3").1

/-- C6 (code bug evidence): a batch of three pending changes in which the
second is a segments importance update with an invalid enum value is
aborted by the escaping ValueError: the first change is applied (its
fingerprint enters the version log), the third is never processed (only
one per-id result line exists), and no id at all is removed from
pending_changes, including the already applied first one. -/
theorem c6_batch_aborted_by_exception :
    c6StateWithPending.pending_changes.map (fun c => c.id) = ["id1", "id2", "id3"] ∧
    (applyProposedChanges c6StateWithPending ["id1", "id2", "id3"]).1.pending_changes
      = c6StateWithPending.pending_changes ∧
    (applyProposedChanges c6StateWithPending ["id1", "id2", "id3"]).1.versions.map
      (fun v => v.change_hash) = ["bmc|key_partners|add|Acme Cloud"] ∧
    (applyProposedChanges c6StateWithPending ["id1", "id2", "id3"]).2
      = .exnAborted ["Applied: add Acme Cloud in bmc.key_partners. Reason: r1"]
          "ValueError: extremely_important is not a valid SegmentImportance" := by
  refine ⟨?_, ?_, ?_, ?_⟩ <;> decide

theorem segUpdate_notFound (segs : List CustomerSegment) (target field nv : String)
    (h : ∀ sg ∈ segs, ¬ sg.name = target) : segUpdate segs target field nv = .notFound := by
  induction segs with
  | nil => rfl
  | cons sg rest ih =>
    unfold segUpdate
    rw [if_neg (h sg (by simp))]
    rw [ih (fun w hw => h w (by simp [hw]))]

/-- C5 counterexample: the claim says every segments update whose
old_value matches no segment name fails with SegmentNotFound and records
nothing, but when new_value is missing the update guard is skipped
entirely: the apply succeeds and records a version entry even though
old_value ("Alex") matches no segment. -/
theorem c5_segment_not_found_counterexample :
    (∀ sg ∈ initialState.segments, ¬ sg.name = "Alex") ∧
    (applySingleChange initialState
        (mkProposedChange "i1" .segments "persona" .update (some "Alex") none "r")).2
      = .ok (appliedMsg (mkProposedChange "i1" .segments "persona" .update (some "Alex") none "r")) ∧
    (applySingleChange initialState
        (mkProposedChange "i1" .segments "persona" .update (some "Alex") none "r")).1.versions.length
      = 1 := by
  refine ⟨?_, ?_, ?_⟩ <;> decide

/-- C5 (amended): for every segments update whose old_value and
new_value are both present and non-empty and whose old_value matches no
existing segment name, the apply fails with the SegmentNotFound error
outcome and the state is completely unchanged: segments list untouched,
no version entry recorded, nothing pushed onto the undo stack. -/
theorem c5_segment_not_found (s : ThreadState) (c : ProposedChange)
    (hct : c.canvas_type = .segments) (ha : c.action = .update)
    (ho : truthy c.old_value = true) (hn : truthy c.new_value = true)
    (hmiss : ∀ sg ∈ s.segments, ¬ sg.name = c.old_value.getD "") :
    applySingleChange s c
      = (s, .err ("No segment found with name " ++ c.old_value.getD ""
          ++ ". Pass the segment name as old_value to identify which segment to update.")) := by
  obtain ⟨cid, cct, cf, ca, cov, cnv, cr, chash⟩ := c
  simp only at hct ha ho hn hmiss
  subst hct ha
  simp only [applySingleChange]
  rw [if_neg (by simp), if_neg (by simp)]
  rw [if_pos (by simp [ho, hn])]
  rw [segUpdate_notFound s.segments _ _ _ hmiss]

theorem c5_segment_not_found_witness :
    applySingleChange initialState
        (mkProposedChange "i1" .segments "persona" .update (some "Alex") (some "Sr eng") "r")
      = (initialState, .err ("No segment found with name Alex"
          ++ ". Pass the segment name as old_value to identify which segment to update.")) :=
  c5_segment_not_found initialState
    (mkProposedChange "i1" .segments "persona" .update (some "Alex") (some "Sr eng") "r")
    rfl rfl (by decide) (by decide) (by decide)

theorem segUpdate_unknown_field (segs : List CustomerSegment) (target field nv : String)
    (h1 : ¬ field = "name") (h2 : ¬ field = "description") (h3 : ¬ field = "persona")
    (h4 : ¬ field = "importance") (hex : ∃ sg ∈ segs, sg.name = target) :
    segUpdate segs target field nv = .updated segs := by
  induction segs with
  | nil => simp at hex
  | cons sg rest ih =>
    unfold segUpdate
    by_cases hname : sg.name = target
    · rw [if_pos hname, if_neg h1, if_neg h2, if_neg h3, if_neg h4]
    · rw [if_neg hname]
      obtain ⟨w, hw, hwn⟩ := hex
      rcases List.mem_cons.mp hw with hws | hwr
      · exact absurd (hws ▸ hwn) hname
      · rw [ih ⟨w, hwr, hwn⟩]

/-- C9 counterexample: the claim says an unrecognized field aborts with
InvalidField for all three canvas types, but segments performs no field
validation: an update of an existing segment with the unknown field
budget succeeds, records a version entry, and changes nothing. -/
theorem c9_invalid_field_counterexample :
    (applySingleChange initialState
        (mkProposedChange "i1" .segments "budget" .update (some "Technical Founders")
          (some "x") "r")).2
      = .ok (appliedMsg (mkProposedChange "i1" .segments "budget" .update
          (some "Technical Founders") (some "x") "r")) ∧
    (applySingleChange initialState
        (mkProposedChange "i1" .segments "budget" .update (some "Technical Founders")
          (some "x") "r")).1.segments = initialState.segments ∧
    (applySingleChange initialState
        (mkProposedChange "i1" .segments "budget" .update (some "Technical Founders")
          (some "x") "r")).1.versions.length = 1 := by
  refine ⟨?_, ?_, ?_⟩ <;> decide

/-- C9 (amended): an unrecognized field name aborts the apply with the
InvalidField outcome and mutates nothing for bmc (9 fields) and for vpc
(6 sections); segments however performs no field-name validation: an
update that targets an existing segment with an unrecognized field
reports success and records a version entry with identical before and
after snapshots while leaving every segment unchanged. -/
theorem c9_invalid_field (s : ThreadState) (c : ProposedChange) :
    (c.canvas_type = .bmc → s.bmc.get? c.field = none →
       applySingleChange s c = (s, .err ("Invalid BMC field: " ++ c.field))) ∧
    (c.canvas_type = .vpc → s.vpc.get? c.field = none →
       applySingleChange s c = (s, .err ("Invalid VPC field: " ++ c.field))) ∧
    (c.canvas_type = .segments → c.action = .update → truthy c.old_value = true →
       truthy c.new_value = true →
       ¬ c.field = "name" → ¬ c.field = "description" → ¬ c.field = "persona" →
       ¬ c.field = "importance" →
       (∃ sg ∈ s.segments, sg.name = c.old_value.getD "") →
       ∃ v : VersionEntry,
         applySingleChange s c = (recordVersion s v, .ok (appliedMsg c)) ∧
         v.snapshot_before = v.snapshot_after) := by
  obtain ⟨cid, cct, cf, ca, cov, cnv, cr, chash⟩ := c
  refine ⟨?_, ?_, ?_⟩
  · intro hct hg
    simp only at hct
    subst hct
    simp only [applySingleChange]
    rw [hg]
  · intro hct hg
    simp only at hct
    subst hct
    simp only [applySingleChange]
    rw [hg]
  · intro hct ha ho hn h1 h2 h3 h4 hex
    simp only at hct ha ho hn h1 h2 h3 h4 hex
    subst hct ha
    simp only [applySingleChange]
    rw [if_neg (by simp), if_neg (by simp), if_pos (by simp [ho, hn])]
    rw [segUpdate_unknown_field s.segments _ _ _ h1 h2 h3 h4 hex]
    exact ⟨_, rfl, rfl⟩

theorem c9_invalid_field_witness :
    applySingleChange initialState
        (mkProposedChange "w1" .bmc "nonexistent" .add (some "x") (some "y") "r")
      = (initialState, .err ("Invalid BMC field: " ++ "nonexistent")) ∧
    applySingleChange initialState
        (mkProposedChange "w2" .vpc "nonexistent" .add (some "x") (some "y") "r")
      = (initialState, .err ("Invalid VPC field: " ++ "nonexistent")) ∧
    ∃ v : VersionEntry,
      applySingleChange initialState
          (mkProposedChange "w3" .segments "budget" .update (some "Technical Founders")
            (some "x") "r")
        = (recordVersion initialState v,
           .ok (appliedMsg (mkProposedChange "w3" .segments "budget" .update
             (some "Technical Founders") (some "x") "r"))) ∧
      v.snapshot_before = v.snapshot_after :=
  ⟨(c9_invalid_field initialState
      (mkProposedChange "w1" .bmc "nonexistent" .add (some "x") (some "y") "r")).1
      rfl (by decide),
   (c9_invalid_field initialState
      (mkProposedChange "w2" .vpc "nonexistent" .add (some "x") (some "y") "r")).2.1
      rfl (by decide),
   (c9_invalid_field initialState
      (mkProposedChange "w3" .segments "budget" .update (some "Technical Founders")
        (some "x") "r")).2.2
      rfl rfl (by decide) (by decide) (by decide) (by decide) (by decide) (by decide)
      (by decide)⟩

theorem map_update_no_match {l : List String} {old nv : String}
    (h : ∀ x ∈ l, ¬ x = old) : l.map (fun v => if v = old then nv else v) = l := by
  induction l with
  | nil => rfl
  | cons x xs ih =>
    simp only [List.map_cons]
    rw [if_neg (h x (by simp)), ih (fun w hw => h w (by simp [hw]))]

theorem map_update_no_match_vpc {l : List CanvasItem} {old nv : String}
    (h : ∀ item ∈ l, ¬ item.text = old) :
    l.map (fun item => if item.text = old then { item with text := nv } else item) = l := by
  induction l with
  | nil => rfl
  | cons x xs ih =>
    simp only [List.map_cons]
    rw [if_neg (h x (by simp)), ih (fun w hw => h w (by simp [hw]))]

/-- C8: for every bmc or vpc apply with a valid field that changes
nothing, an update whose old_value matches no entry or an add whose
new_value equals content already present, the canvas is left unchanged
but the operation still succeeds and appends a version entry whose
before and after snapshots are identical, pushing that entry onto the
undo stack (recordVersion appends to versions and undo_stack and clears
redo_stack, leaving every canvas untouched). -/
theorem c8_noop_apply_still_versioned (s : ThreadState) (c : ProposedChange)
    (h : (c.canvas_type = .bmc ∧ ∃ entries, s.bmc.get? c.field = some entries ∧
           ((c.action = .update ∧ truthy c.old_value = true ∧ truthy c.new_value = true ∧
              (∀ x ∈ entries, ¬ x = c.old_value.getD "")) ∨
            (c.action = .add ∧ truthy c.new_value = true ∧ (c.new_value.getD "") ∈ entries)))
       ∨ (c.canvas_type = .vpc ∧ ∃ entries, s.vpc.get? c.field = some entries ∧
           ((c.action = .update ∧ truthy c.old_value = true ∧ truthy c.new_value = true ∧
              (∀ item ∈ entries, ¬ item.text = c.old_value.getD "")) ∨
            (c.action = .add ∧ truthy c.new_value = true ∧
              (c.new_value.getD "") ∈ entries.map (fun item => item.text))))) :
    ∃ v : VersionEntry,
      applySingleChange s c = (recordVersion s v, .ok (appliedMsg c)) ∧
      v.snapshot_before = v.snapshot_after := by
  obtain ⟨cid, cct, cf, ca, cov, cnv, cr, chash⟩ := c
  rcases h with ⟨hct, entries, hg, hcase⟩ | ⟨hct, entries, hg, hcase⟩
  · simp only at hct hg hcase
    subst hct
    simp only [applySingleChange]
    split
    · next hn => rw [hg] at hn; exact absurd hn (by simp)
    · next entries2 heq =>
      rw [hg] at heq
      injection heq with heq2
      subst heq2
      rcases hcase with ⟨ha, ho, hn, hmiss⟩ | ⟨ha, hn, hmem⟩
      · subst ha
        rw [if_neg (by simp), if_neg (by simp), if_pos (by simp [ho, hn])]
        rw [map_update_no_match hmiss, bmcSetGet s.bmc cf entries hg]
        exact ⟨_, rfl, rfl⟩
      · subst ha
        rw [if_pos (by simp [hn]), if_pos hmem, bmcSetGet s.bmc cf entries hg]
        exact ⟨_, rfl, rfl⟩
  · simp only at hct hg hcase
    subst hct
    simp only [applySingleChange]
    split
    · next hn => rw [hg] at hn; exact absurd hn (by simp)
    · next entries2 heq =>
      rw [hg] at heq
      injection heq with heq2
      subst heq2
      rcases hcase with ⟨ha, ho, hn, hmiss⟩ | ⟨ha, hn, hmem⟩
      · subst ha
        rw [if_neg (by simp), if_neg (by simp), if_pos (by simp [ho, hn])]
        rw [map_update_no_match_vpc hmiss, vpcSetGet s.vpc cf entries hg]
        exact ⟨_, rfl, rfl⟩
      · subst ha
        rw [if_pos (by simp [hn]), if_pos hmem, vpcSetGet s.vpc cf entries hg]
        exact ⟨_, rfl, rfl⟩

theorem c8_noop_apply_still_versioned_witness :
    ∃ v : VersionEntry,
      applySingleChange initialState
          (mkProposedChange "w1" .bmc "key_partners" .update (some "No such partner")
            (some "Replacement") "r")
        = (recordVersion initialState v,
           .ok (appliedMsg (mkProposedChange "w1" .bmc "key_partners" .update
             (some "No such partner") (some "Replacement") "r"))) ∧
      v.snapshot_before = v.snapshot_after :=
  c8_noop_apply_still_versioned initialState
    (mkProposedChange "w1" .bmc "key_partners" .update (some "No such partner")
      (some "Replacement") "r")
    (Or.inl ⟨rfl, initialState.bmc.key_partners, by decide,
      Or.inl ⟨rfl, by decide, by decide, by decide⟩⟩)

/-- C10: for every apply with a valid field whose action-specific
required value is missing or empty (add with no new_value, remove with
no old_value, update lacking old_value or new_value), no mutation branch
runs and the canvas is unchanged, yet the operation reports success,
appends a version entry with identical before and after snapshots,
clears the redo stack, pushes the entry onto the undo stack, and
consumes the change fingerprint for future idempotency checks (the
entry recorded by recordVersion carries change_hash). -/
theorem c10_missing_values_still_versioned (s : ThreadState) (c : ProposedChange)
    (hf : (c.canvas_type = .bmc → ∃ l, s.bmc.get? c.field = some l) ∧
          (c.canvas_type = .vpc → ∃ l, s.vpc.get? c.field = some l))
    (hm : (c.action = .add ∧ truthy c.new_value = false) ∨
          (c.action = .remove ∧ truthy c.old_value = false) ∨
          (c.action = .update ∧ (truthy c.old_value = false ∨ truthy c.new_value = false))) :
    ∃ v : VersionEntry,
      applySingleChange s c = (recordVersion s v, .ok (appliedMsg c)) ∧
      v.snapshot_before = v.snapshot_after ∧
      v.change_hash = c.change_hash := by
  obtain ⟨cid, cct, cf, ca, cov, cnv, cr, chash⟩ := c
  simp only at hf hm
  cases cct
  · obtain ⟨l, hg⟩ := hf.1 rfl
    simp only [applySingleChange]
    split
    · next hn => rw [hg] at hn; exact absurd hn (by simp)
    · next entries heq =>
      rw [hg] at heq
      injection heq with heq2
      subst heq2
      rcases hm with ⟨ha, hx⟩ | ⟨ha, hx⟩ | ⟨ha, hx⟩ <;> subst ha
      · rw [if_neg (by simp [hx]), if_neg (by simp), if_neg (by simp),
          bmcSetGet s.bmc cf l hg]
        exact ⟨_, rfl, rfl, rfl⟩
      · rw [if_neg (by simp), if_neg (by simp [hx]), if_neg (by simp),
          bmcSetGet s.bmc cf l hg]
        exact ⟨_, rfl, rfl, rfl⟩
      · rcases hx with hx | hx <;>
          rw [if_neg (by simp), if_neg (by simp), if_neg (by simp [hx]),
            bmcSetGet s.bmc cf l hg] <;>
          exact ⟨_, rfl, rfl, rfl⟩
  · obtain ⟨l, hg⟩ := hf.2 rfl
    simp only [applySingleChange]
    split
    · next hn => rw [hg] at hn; exact absurd hn (by simp)
    · next entries heq =>
      rw [hg] at heq
      injection heq with heq2
      subst heq2
      rcases hm with ⟨ha, hx⟩ | ⟨ha, hx⟩ | ⟨ha, hx⟩ <;> subst ha
      · rw [if_neg (by simp [hx]), if_neg (by simp), if_neg (by simp),
          vpcSetGet s.vpc cf l hg]
        exact ⟨_, rfl, rfl, rfl⟩
      · rw [if_neg (by simp), if_neg (by simp [hx]), if_neg (by simp),
          vpcSetGet s.vpc cf l hg]
        exact ⟨_, rfl, rfl, rfl⟩
      · rcases hx with hx | hx <;>
          rw [if_neg (by simp), if_neg (by simp), if_neg (by simp [hx]),
            vpcSetGet s.vpc cf l hg] <;>
          exact ⟨_, rfl, rfl, rfl⟩
  · simp only [applySingleChange]
    rcases hm with ⟨ha, hx⟩ | ⟨ha, hx⟩ | ⟨ha, hx⟩ <;> subst ha
    · rw [if_neg (by simp [hx]), if_neg (by simp), if_neg (by simp)]
      exact ⟨_, rfl, rfl, rfl⟩
    · rw [if_neg (by simp), if_neg (by simp [hx]), if_neg (by simp)]
      exact ⟨_, rfl, rfl, rfl⟩
    · rcases hx with hx | hx <;>
        rw [if_neg (by simp), if_neg (by simp), if_neg (by simp [hx])] <;>
        exact ⟨_, rfl, rfl, rfl⟩

theorem c10_missing_values_still_versioned_witness :
    ∃ v : VersionEntry,
      applySingleChange initialState
          (mkProposedChange "w1" .segments "persona" .update (some "Technical Founders")
            none "r")
        = (recordVersion initialState v,
           .ok (appliedMsg (mkProposedChange "w1" .segments "persona" .update
             (some "Technical Founders") none "r"))) ∧
      v.snapshot_before = v.snapshot_after ∧
      v.change_hash = (mkProposedChange "w1" .segments "persona" .update
        (some "Technical Founders") none "r").change_hash :=
  c10_missing_values_still_versioned initialState
    (mkProposedChange "w1" .segments "persona" .update (some "Technical Founders") none "r")
    ⟨fun h => absurd h (by decide), fun h => absurd h (by decide)⟩ (by decide)

/-- C7: after undoing the version entry on top of the undo stack,
proposing a change with the same (canvas_type, field, action, new_value)
content is not reported as a duplicate, and when the propose applies it
in auto mode, a new version entry with that fingerprint is appended to
the version log. -/
theorem c7_undo_reopens_idempotency (s1 : ThreadState) (us : List VersionEntry)
    (v : VersionEntry) (ct : CanvasType) (a : ChangeAction) (f : String)
    (nv ov : Option String) (reason freshId : String)
    (hstack : s1.undo_stack = us ++ [v])
    (hhash : computeHash ct f a nv = v.change_hash) :
    (∀ hh : String, ¬ (proposeCanvasUpdate (undoLastChange s1).1 ct.toStr f a.toStr nv ov
        reason freshId).2 = ProposeOutcome.duplicate hh) ∧
    (∀ (s3 : ThreadState) (m : String),
       proposeCanvasUpdate (undoLastChange s1).1 ct.toStr f a.toStr nv ov reason freshId
         = (s3, .autoApplied (.ok m)) →
       ∃ v2 : VersionEntry,
         s3.versions = (undoLastChange s1).1.versions ++ [v2] ∧
         v2.change_hash = v.change_hash) := by
  have hver2 : (undoLastChange s1).1.versions
      = s1.versions.filter (fun w => ¬ w.change_hash = v.change_hash) := by
    unfold undoLastChange
    rw [hstack, List.getLast?_concat]
    simp only [restoreSnap_versions]
  have hnotin : ((undoLastChange s1).1.versions.any (fun w =>
      w.change_hash = (mkProposedChange freshId ct f a ov nv reason).change_hash)) = false := by
    apply List.any_eq_false.mpr
    intro w hw
    rw [hver2] at hw
    have h2 := (List.mem_filter.mp hw).2
    simp only [decide_eq_true_eq] at h2 ⊢
    simp only [mkProposedChange]
    rw [hhash]
    exact h2
  have hprop : proposeCanvasUpdate (undoLastChange s1).1 ct.toStr f a.toStr nv ov reason freshId
      = proposeWithChange (undoLastChange s1).1 (mkProposedChange freshId ct f a ov nv reason) := by
    unfold proposeCanvasUpdate
    rw [canvasTypeRoundtrip, changeActionRoundtrip]
  constructor
  · intro hh
    rw [hprop]
    unfold proposeWithChange
    rw [if_neg (by simp [hnotin])]
    split_ifs with hau
    · split
      · simp
      · simp
    · simp
  · intro s3 m hp
    rw [hprop] at hp
    unfold proposeWithChange at hp
    rw [if_neg (by simp [hnotin])] at hp
    split_ifs at hp with hau
    · split at hp
      · exact absurd hp (by simp)
      · next s2b o hne heq =>
        rw [Prod.mk.injEq] at hp
        obtain ⟨hs, ho⟩ := hp
        injection ho with ho2
        subst ho2 hs
        obtain ⟨v2, hv2, -, -, -, -, -, -, hv2h, -⟩ :=
          applySingle_ok (undoLastChange s1).1 _ s2b m heq
        exact ⟨v2, hv2, by rw [hv2h]; simp only [mkProposedChange]; rw [hhash]⟩
    · exact absurd hp (by simp)

def c7AppliedState : ThreadState :=
  (proposeCanvasUpdate { initialState with auto_mode := true } "bmc" "key_partners" "add"
    (some "Acme Cloud") none "ev" "id1").1

def c7Version : VersionEntry :=
  mkVersion true .bmc
    (mkProposedChange "id1" .bmc "key_partners" .add none (some "Acme Cloud") "ev")
    (.bmcSnap seedBmc)
    (.bmcSnap { seedBmc with key_partners := seedBmc.key_partners ++ ["Acme Cloud"] })

theorem c7_undo_reopens_idempotency_witness :
    (∀ hh : String, ¬ (proposeCanvasUpdate (undoLastChange c7AppliedState).1
        CanvasType.bmc.toStr "key_partners" ChangeAction.add.toStr (some "Acme Cloud") none
        "ev2" "id2").2 = ProposeOutcome.duplicate hh) ∧
    (∀ (s3 : ThreadState) (m : String),
       proposeCanvasUpdate (undoLastChange c7AppliedState).1 CanvasType.bmc.toStr
           "key_partners" ChangeAction.add.toStr (some "Acme Cloud") none "ev2" "id2"
         = (s3, .autoApplied (.ok m)) →
       ∃ v2 : VersionEntry,
         s3.versions = (undoLastChange c7AppliedState).1.versions ++ [v2] ∧
         v2.change_hash = c7Version.change_hash) :=
  c7_undo_reopens_idempotency c7AppliedState [] c7Version .bmc .add "key_partners"
    (some "Acme Cloud") none "ev2" "id2" (by decide) (by decide)
